import Mathlib

/-!
# Verification of `comfyui_batch_generator.py`

A shallow embedding of the workflow-graph logic of the batch image
generator: JSON-like values, the link-form ("UI export") graph shape,
structural validation (`validate_workflow`), prompt injection
(`update_workflow_prompt`), the text-node classifier
(`find_text_encode_nodes`), the link-form → execution-form conversion
(`convert_ui_to_api_format` with its widget mapping step), the
websocket wait loop of `get_images`, and the per-item batch loop of
`generate_batch`.

Python dictionaries holding graph data are modelled as structures with
`Option` fields for optional keys plus an `extra` association list for
any further keys the code never touches; Python lists are Lean lists;
`copy.deepcopy` on these immutable values is the identity.  Dictionary
writes are modelled by prepending to an association list, so that a
lookup (`dictFind`) returns the most recent write, matching Python
dict overwrite semantics.
-/

set_option autoImplicit false

namespace ComfyBatch

/-- A scalar JSON value as it appears in widget slots, ids and link
entries of a workflow file. -/
inductive JVal where
  | str : String → JVal
  | int : Int → JVal
  | bool : Bool → JVal
  | null : JVal
deriving DecidableEq, Repr

/-- Python `str()` on a scalar JSON value. -/
def pyStr : JVal → String
  | .str s => s
  | .int n => toString n
  | .bool true => "True"
  | .bool false => "False"
  | .null => "None"

/-- `startsWithChars n h` decides whether `n` is an initial segment of `h`. -/
def startsWithChars : List Char → List Char → Bool
  | [], _ => true
  | _ :: _, [] => false
  | a :: asr, b :: bs => a = b && startsWithChars asr bs

/-- `subChars n h` decides whether `n` occurs contiguously inside `h`
(Python's `n in h` on strings, after `String.toList`). -/
def subChars (needle : List Char) : List Char → Bool
  | [] => startsWithChars needle []
  | c :: t => startsWithChars needle (c :: t) || subChars needle t

/-- Python's substring test `needle in hay`. -/
def strIn (needle hay : String) : Bool :=
  subChars needle.toList hay.toList

/-- Python `str.lower()` (ASCII case folding, character by
character). -/
def pyLower (s : String) : String :=
  String.mk (s.toList.map Char.toLower)

/-- First-match association-list lookup; with entries prepended on
write this realises Python dict lookup (latest write wins). -/
def dictFind {α β : Type} [DecidableEq α] (k : α) : List (α × β) → Option β
  | [] => none
  | p :: rest => if p.1 = k then some p.2 else dictFind k rest

/-- One element of a link-form node's `inputs` array:
`{name, link}`, both keys optional (`input_item.get('name','')`,
`input_item.get('link')`; an explicit JSON `null` link and an absent
`link` key behave identically in the source, so both are `none`). -/
structure NodeInput where
  name : Option String
  link : Option JVal
deriving DecidableEq, Repr

/-- The dictionary fields of a link-form node: `id`, `type`, `inputs`
and `widgets_values` as optional keys, plus any remaining keys the
code never reads or writes. -/
structure NodeObj where
  id : Option JVal
  ty : Option JVal
  inputs : Option (List NodeInput)
  widgets_values : Option (List JVal)
  extra : List (String × JVal)
deriving DecidableEq, Repr

/-- A link-form node: either a JSON dictionary or some other JSON
value (the code guards every access with `isinstance(node, dict)`). -/
inductive UINode where
  | obj : NodeObj → UINode
  | nonDict : JVal → UINode
deriving DecidableEq, Repr

/-- The value stored under the `nodes` key of a workflow: an array of
nodes, or some non-array value (rejected by `validate_workflow`). -/
inductive NodesField where
  | arr : List UINode → NodesField
  | nonArr : JVal → NodesField
deriving DecidableEq, Repr

/-- The dictionary fields of a link-form workflow: the optional
`nodes` and `links` keys plus untouched extra keys.  Each link entry
is a JSON array of scalar values. -/
structure WorkflowObj where
  nodes : Option NodesField
  links : Option (List (List JVal))
  extra : List (String × JVal)
deriving DecidableEq, Repr

/-- A link-form workflow: a JSON dictionary or some other JSON value
(the latter is rejected by `validate_workflow`). -/
inductive UIWorkflow where
  | obj : WorkflowObj → UIWorkflow
  | nonDict : JVal → UIWorkflow
deriving DecidableEq, Repr

/-- `workflow.get('nodes', [])` followed by iteration: the node list
of a workflow, `[]` when the key is absent (iteration over a present
non-array value is never reached by the modelled call sites, which
either validate first or skip such graphs). -/
def getNodes : UIWorkflow → List UINode
  | .obj w =>
    match w.nodes with
    | some (.arr ns) => ns
    | _ => []
  | .nonDict _ => []

/-- `ui_workflow.get('links', [])`. -/
def getLinks : UIWorkflow → List (List JVal)
  | .obj w => w.links.getD []
  | .nonDict _ => []

/-- The `id` of a node when it is a dictionary carrying one. -/
def node_id_of : UINode → Option JVal
  | .obj f => f.id
  | .nonDict _ => none

/-- `validate_workflow`'s per-node loop, carrying the running index
`i` used in the error messages. -/
def validate_nodes_from : Nat → List UINode → Bool × String
  | _, [] => (true, "UI格式工作流验证通过")
  | i, n :: rest =>
    match n with
    | .nonDict _ => (false, "节点 " ++ toString i ++ " 不是字典格式")
    | .obj f =>
      match f.id with
      | none => (false, "节点 " ++ toString i ++ " 缺少id属性")
      | some idv =>
        if f.ty = none then (false, "节点 " ++ pyStr idv ++ " 缺少type属性")
        else validate_nodes_from (i + 1) rest

/-- `validate_workflow`: structural well-formedness of a link-form
workflow, returned as `(ok, reason)`. -/
def validate_workflow : UIWorkflow → Bool × String
  | .nonDict _ => (false, "工作流必须是字典格式")
  | .obj w =>
    match w.nodes with
    | none => (false, "工作流缺少nodes数组")
    | some (.nonArr _) => (false, "nodes必须是数组格式")
    | some (.arr ns) => validate_nodes_from 0 ns

/-- The fixed keyword list used to classify a text node as negative. -/
def neg_keywords : List String :=
  ["nsfw", "worst", "low quality", "bad", "negative", "ugly"]

/-- `any(neg_word in current_text for neg_word in [...])` applied to
`str(widgets_values[0]).lower()`. -/
def classify_negative (t : JVal) : Bool :=
  let current_text := pyLower (pyStr t)
  neg_keywords.any (fun w => strIn w current_text)

/-- One entry of the dictionary built by `find_text_encode_nodes`:
the node itself, its first widget value, and the negative flag. -/
structure TextNodeEntry where
  node : UINode
  text : JVal
  is_negative : Bool
deriving DecidableEq, Repr

/-- The loop body of `find_text_encode_nodes`: prepend an entry keyed
by `node.get('id')` for every dict node of type `CLIPTextEncode` with
a non-empty `widgets_values` list. -/
def find_step (acc : List (Option JVal × TextNodeEntry)) (n : UINode) :
    List (Option JVal × TextNodeEntry) :=
  match n with
  | .nonDict _ => acc
  | .obj f =>
    if f.ty = some (.str "CLIPTextEncode") then
      match f.widgets_values with
      | some (w :: _) => (f.id, ⟨.obj f, w, classify_negative w⟩) :: acc
      | _ => acc
    else acc

/-- `find_text_encode_nodes`: the classifier-driven query over the
link-form workflow. -/
def find_text_encode_nodes (g : UIWorkflow) : List (Option JVal × TextNodeEntry) :=
  (getNodes g).foldl find_step []

/-- The per-node body of `update_workflow_prompt`'s loop: overwrite
`widgets_values[0]` when the node is a dict with an `id`, has type
`CLIPTextEncode`, a non-empty `widgets_values`, and its id equals the
positive (or else the negative) target id; the second component is
the node's contribution to `updated_count`. -/
def update_node (pos neg : String) (pid nid : JVal) (n : UINode) : UINode × Nat :=
  match n with
  | .nonDict v => (.nonDict v, 0)
  | .obj f =>
    match f.id with
    | none => (.obj f, 0)
    | some node_id =>
      if f.ty = some (.str "CLIPTextEncode") then
        match f.widgets_values with
        | some (_ :: ws) =>
          if node_id = pid then
            (.obj { f with widgets_values := some (JVal.str pos :: ws) }, 1)
          else if node_id = nid then
            (.obj { f with widgets_values := some (JVal.str neg :: ws) }, 1)
          else (.obj f, 0)
        | _ => (.obj f, 0)
      else (.obj f, 0)

/-- The whole node loop of `update_workflow_prompt`, returning the
updated node list together with `updated_count`. -/
def update_nodes (pos neg : String) (pid nid : JVal) : List UINode → List UINode × Nat
  | [] => ([], 0)
  | n :: rest =>
    let r := update_node pos neg pid nid n
    let rr := update_nodes pos neg pid nid rest
    (r.1 :: rr.1, r.2 + rr.2)

/-- Store an updated node list back into the workflow (the source
mutates the list in place; this is reached only after validation has
established that `nodes` is present and is an array). -/
def setNodes : UIWorkflow → List UINode → UIWorkflow
  | .obj w, ns => .obj { w with nodes := some (.arr ns) }
  | .nonDict v, _ => .nonDict v

/-- `update_workflow_prompt`: validate, deep-copy (the identity on
these immutable values), validate the copy, run the id-driven update
loop, validate the result; a failed validation raises `ValueError`,
modelled as `Except.error` carrying the message.  The result also
carries `updated_count`, from which the "no nodes updated" warning is
decided. -/
def update_workflow_prompt (workflow : UIWorkflow) (pos neg : String)
    (pid nid : JVal) : Except String (UIWorkflow × Nat) :=
  let v1 := validate_workflow workflow
  if v1.1 then
    let workflow_copy := workflow
    let v2 := validate_workflow workflow_copy
    if v2.1 then
      let r := update_nodes pos neg pid nid (getNodes workflow_copy)
      let workflow2 := setNodes workflow_copy r.1
      let v3 := validate_workflow workflow2
      if v3.1 then .ok (workflow2, r.2)
      else .error ("更新后工作流验证失败: " ++ v3.2)
    else .error ("拷贝后工作流验证失败: " ++ v2.2)
  else .error ("原工作流验证失败: " ++ v1.2)

/-- The "警告: 未找到..." warning of `update_workflow_prompt` is
printed exactly when the update loop touched no node. -/
def no_nodes_updated_warning (r : Except String (UIWorkflow × Nat)) : Bool :=
  match r with
  | .ok p => p.2 == 0
  | .error _ => false

/-- The payload stored in the link map for one link entry. -/
structure LinkInfo where
  source_node : JVal
  source_output : JVal
  target_node : JVal
  target_input : JVal
deriving DecidableEq, Repr

/-- One step of building the link map: a link entry with at least six
elements is destructured and stored under its link id (prepended, so
a later duplicate id overwrites an earlier one on lookup); shorter
entries are skipped. -/
def link_step (m : List (JVal × LinkInfo)) (link : List JVal) :
    List (JVal × LinkInfo) :=
  match link with
  | lid :: sn :: so :: tn :: ti :: _ :: _ => (lid, ⟨sn, so, tn, ti⟩) :: m
  | _ => m

/-- The link map `link_id -> {source_node, source_output,
target_node, target_input}` of `convert_ui_to_api_format`. -/
def build_link_map (links : List (List JVal)) : List (JVal × LinkInfo) :=
  links.foldl link_step []

/-- An execution-form input value: a literal widget value or a
`[str(source_node), source_output]` reference pair. -/
inductive ApiInputVal where
  | lit : JVal → ApiInputVal
  | link : String → JVal → ApiInputVal
deriving DecidableEq, Repr

/-- One execution-form node `{class_type, inputs}`; `inputs` is a
dict modelled as an association list with the most recent write
first. -/
structure ApiNode where
  class_type : JVal
  inputs : List (String × ApiInputVal)
deriving DecidableEq, Repr

/-- One step of the connection-input loop: resolve
`input_item.get('link')` through the link map and write
`inputs[input_item.get('name','')]`; a `null`/absent link id or one
missing from the map contributes nothing. -/
def resolve_step (lm : List (JVal × LinkInfo))
    (acc : List (String × ApiInputVal)) (it : NodeInput) :
    List (String × ApiInputVal) :=
  let input_name := it.name.getD ""
  match it.link with
  | none => acc
  | some lid =>
    match dictFind lid lm with
    | none => acc
    | some info => (input_name, .link (pyStr info.source_node) info.source_output) :: acc

/-- The connection-input loop of `convert_ui_to_api_format` over one
node's declared `inputs`. -/
def resolve_link_inputs (lm : List (JVal × LinkInfo)) (ins : List NodeInput) :
    List (String × ApiInputVal) :=
  ins.foldl (resolve_step lm) []

/-- `_map_widgets_to_inputs` of the source: overlay positional widget
values onto the execution-form inputs according to the fixed per-type
table (KSampler, EmptyLatentImage, CheckpointLoaderSimple,
LoraLoader); any other type leaves the inputs untouched. -/
def map_widgets_to_inputs (ui_node : NodeObj)
    (inputs : List (String × ApiInputVal)) : List (String × ApiInputVal) :=
  let node_type := ui_node.ty.getD (.str "")
  let widgets := ui_node.widgets_values.getD []
  if node_type = JVal.str "KSampler" ∧ 7 ≤ widgets.length then
    ("denoise", .lit (widgets.getD 6 .null)) ::
    ("scheduler", .lit (widgets.getD 5 .null)) ::
    ("sampler_name", .lit (widgets.getD 4 .null)) ::
    ("cfg", .lit (widgets.getD 3 .null)) ::
    ("steps", .lit (widgets.getD 2 .null)) ::
    ("control_after_generate", .lit (widgets.getD 1 .null)) ::
    ("seed", .lit (widgets.getD 0 .null)) :: inputs
  else if node_type = JVal.str "EmptyLatentImage" ∧ 3 ≤ widgets.length then
    ("batch_size", .lit (widgets.getD 2 .null)) ::
    ("height", .lit (widgets.getD 1 .null)) ::
    ("width", .lit (widgets.getD 0 .null)) :: inputs
  else if node_type = JVal.str "CheckpointLoaderSimple" ∧ 1 ≤ widgets.length then
    ("ckpt_name", .lit (widgets.getD 0 .null)) :: inputs
  else if node_type = JVal.str "LoraLoader" ∧ 3 ≤ widgets.length then
    ("strength_clip", .lit (widgets.getD 2 .null)) ::
    ("strength_model", .lit (widgets.getD 1 .null)) ::
    ("lora_name", .lit (widgets.getD 0 .null)) :: inputs
  else inputs

/-- Build the execution-form node for one link-form dict node:
link-resolved inputs, then the widget overlay (when `widgets_values`
is present and non-empty), then the `CLIPTextEncode` special case
that overwrites `text` with the first widget value. -/
def build_api_node (lm : List (JVal × LinkInfo)) (f : NodeObj) : ApiNode :=
  let inputs1 :=
    match f.inputs with
    | some ins => resolve_link_inputs lm ins
    | none => []
  let inputs2 :=
    match f.widgets_values with
    | some (_ :: _) => map_widgets_to_inputs f inputs1
    | _ => inputs1
  let inputs3 :=
    if f.ty = some (.str "CLIPTextEncode") then
      match f.widgets_values with
      | some (w :: _) => ("text", ApiInputVal.lit w) :: inputs2
      | _ => inputs2
    else inputs2
  { class_type := f.ty.getD (.str ""), inputs := inputs3 }

/-- The node loop of `convert_ui_to_api_format`: skip non-dict and
id-less nodes, otherwise store the built node under `str(node['id'])`
(prepended: a later node with the same key wins on lookup). -/
def conv_step (lm : List (JVal × LinkInfo)) (acc : List (String × ApiNode))
    (n : UINode) : List (String × ApiNode) :=
  match n with
  | .nonDict _ => acc
  | .obj f =>
    match f.id with
    | none => acc
    | some idv => (pyStr idv, build_api_node lm f) :: acc

/-- `convert_ui_to_api_format`: link-form → execution-form. -/
def convert_ui_to_api_format (g : UIWorkflow) : List (String × ApiNode) :=
  (getNodes g).foldl (conv_step (build_link_map (getLinks g))) []

/-- One websocket frame as consumed by `get_images`: a non-text
frame, or a parsed text event `{type, data: {node, prompt_id}}` (the
shape the execution service's event contract guarantees). -/
inductive WsEvent where
  | binaryFrame
  | textEvent (ty : JVal) (node : JVal) (prompt_id : JVal)
deriving DecidableEq, Repr

/-- The break condition of the wait loop in `get_images`: a text
event with `type == 'executing'`, `data['node'] is None` and
`data['prompt_id']` equal to the current submission id. -/
def is_completion (prompt_id : JVal) : WsEvent → Bool
  | .binaryFrame => false
  | .textEvent ty node pid =>
    ty = JVal.str "executing" && node = JVal.null && pid = prompt_id

/-- The `while True: out = ws.recv() ...` loop of `get_images` over
an ordered event stream: returns the unconsumed suffix after the
break, or `none` when the stream ends without a completion event (the
real loop would block forever). -/
def wait_for_completion (prompt_id : JVal) : List WsEvent → Option (List WsEvent)
  | [] => none
  | e :: rest =>
    if is_completion prompt_id e then some rest
    else wait_for_completion prompt_id rest

/-- One record of the prompt list file `{id, positive, negative}`. -/
structure PromptItem where
  id : JVal
  positive : String
  negative : String
deriving DecidableEq, Repr

/-- The output filename `prompt_{item.id}_node_{node_id}_{j}.png`. -/
def image_filename (item_id : JVal) (node_id : String) (j : Nat) : String :=
  "prompt_" ++ pyStr item_id ++ "_node_" ++ node_id ++ "_" ++ toString j ++ ".png"

/-- One item's processing inside `generate_batch`: injection, format
conversion, then the effectful submit/wait/collect stage and the save
loop, each of which may fail; any failure aborts only this item.
`run_images` abstracts `client.get_images` (it returns, per output
node id, how many images came back) and `save_image` abstracts the
filesystem write; the result counts saved images. -/
def process_prompt (workflow : UIWorkflow)
    (run_images : List (String × ApiNode) → Except String (List (String × Nat)))
    (save_image : String → Except String Unit)
    (p : PromptItem) : Except String Nat := do
  let u ← update_workflow_prompt workflow p.positive p.negative (JVal.int 6) (JVal.int 7)
  let api := convert_ui_to_api_format u.1
  let images ← run_images api
  images.foldlM
    (fun saved ni =>
      (List.range ni.2).foldlM
        (fun s j => (save_image (image_filename p.id ni.1 j)).map (fun _ => s + 1))
        saved)
    0

/-- What the batch loop logs for one item: completion with a saved
count, or the caught error together with the item's identifier. -/
inductive ItemLog where
  | done (id : JVal) (saved : Nat)
  | failed (id : JVal) (msg : String)
deriving DecidableEq, Repr

/-- The identifier a log entry was tagged with. -/
def ItemLog.itemId : ItemLog → JVal
  | .done i _ => i
  | .failed i _ => i

/-- The `for prompt_data in prompts` loop of `generate_batch`: every
exception from one item's processing is caught, logged with the
item's id, and the loop continues with the next item. -/
def generate_batch_loop (process : PromptItem → Except String Nat) :
    List PromptItem → List ItemLog
  | [] => []
  | p :: rest =>
    (match process p with
     | .ok n => ItemLog.done p.id n
     | .error e => ItemLog.failed p.id e) :: generate_batch_loop process rest

/-- The workflow dictionary's keys other than `nodes` and `links`. -/
def wf_extra : UIWorkflow → List (String × JVal)
  | .obj w => w.extra
  | .nonDict _ => []

/-- Frame relation for prompt injection: the node is unchanged, or it
is a `CLIPTextEncode` dict node targeted by one of the two ids and
only the first entry of its `widgets_values` was replaced by the
corresponding prompt text. -/
def same_except_first_widget (pos neg : String) (pid nid : JVal)
    (n n' : UINode) : Prop :=
  n' = n ∨
  ∃ f w ws, n = UINode.obj f ∧ f.ty = some (JVal.str "CLIPTextEncode") ∧
    f.widgets_values = some (w :: ws) ∧ (f.id = some pid ∨ f.id = some nid) ∧
    n' = UINode.obj
      { f with widgets_values := some ((if f.id = some pid then JVal.str pos else JVal.str neg) :: ws) }

/-- A node that `update_workflow_prompt` would overwrite for target id
`pid`: a dict node with that id, of type `CLIPTextEncode`, with a
non-empty `widgets_values` list. -/
def eligible_text_node (pid : JVal) : UINode → Bool
  | .obj f =>
    decide (f.id = some pid) && decide (f.ty = some (JVal.str "CLIPTextEncode")) &&
      (match f.widgets_values with
       | some (_ :: _) => true
       | _ => false)
  | .nonDict _ => false

/-- Replace the first widget value of a node (identity when the node
has no non-empty `widgets_values`). -/
def set_first_widget (v : JVal) : UINode → UINode
  | .obj f =>
    match f.widgets_values with
    | some (_ :: ws) => .obj { f with widgets_values := some (v :: ws) }
    | _ => .obj f
  | .nonDict x => .nonDict x

/-! ### Concrete example graphs used by witnesses and counterexamples -/

/-- A typical link-form template: checkpoint loader, latent size,
positive and negative text nodes (ids 6 and 7), and a sampler wired
up through five links. -/
def exGraph : UIWorkflow :=
  .obj
    { nodes := some (.arr
        [ .obj { id := some (.int 4), ty := some (.str "CheckpointLoaderSimple"),
                 inputs := none,
                 widgets_values := some [.str "model.safetensors"], extra := [] }
        , .obj { id := some (.int 5), ty := some (.str "EmptyLatentImage"),
                 inputs := none,
                 widgets_values := some [.int 512, .int 768, .int 1], extra := [] }
        , .obj { id := some (.int 6), ty := some (.str "CLIPTextEncode"),
                 inputs := some [{ name := some "clip", link := some (.int 1) }],
                 widgets_values := some [.str "a photo of a landscape"], extra := [] }
        , .obj { id := some (.int 7), ty := some (.str "CLIPTextEncode"),
                 inputs := some [{ name := some "clip", link := some (.int 2) }],
                 widgets_values := some [.str "nsfw, worst quality"], extra := [] }
        , .obj { id := some (.int 3), ty := some (.str "KSampler"),
                 inputs := some
                   [ { name := some "model", link := some (.int 3) }
                   , { name := some "positive", link := some (.int 4) }
                   , { name := some "negative", link := some (.int 5) } ],
                 widgets_values := some
                   [.int 42, .str "randomize", .int 20, .int 8,
                    .str "euler", .str "normal", .int 1], extra := [] } ])
    , links := some
        [ [.int 1, .int 4, .int 1, .int 6, .int 0, .str "CLIP"]
        , [.int 2, .int 4, .int 1, .int 7, .int 0, .str "CLIP"]
        , [.int 3, .int 4, .int 0, .int 3, .int 0, .str "MODEL"]
        , [.int 4, .int 6, .int 0, .int 3, .int 1, .str "CONDITIONING"]
        , [.int 5, .int 7, .int 0, .int 3, .int 2, .str "CONDITIONING"] ]
    , extra := [("last_node_id", .int 10)] }

/-- A valid graph holding a text node with id 6 but no node with
id 7. -/
def exGraph6 : UIWorkflow :=
  .obj
    { nodes := some (.arr
        [ .obj { id := some (.int 6), ty := some (.str "CLIPTextEncode"),
                 inputs := none,
                 widgets_values := some [.str "placeholder"], extra := [] }
        , .obj { id := some (.int 3), ty := some (.str "KSampler"),
                 inputs := none,
                 widgets_values := some
                   [.int 1, .str "fixed", .int 10, .int 7,
                    .str "euler", .str "karras", .int 1], extra := [] } ])
    , links := none
    , extra := [] }

/-- A single text-encoding node with a widget text and no links: its
execution-form entry gets a widget-derived `text` input although its
type is not in the widget mapping table. -/
def exGraphClipOnly : UIWorkflow :=
  .obj
    { nodes := some (.arr
        [ .obj { id := some (.int 1), ty := some (.str "CLIPTextEncode"),
                 inputs := none,
                 widgets_values := some [.str "hello"], extra := [] } ])
    , links := none
    , extra := [] }

/-- A valid graph whose nodes with ids 6 and 7 are not updatable text
nodes: id 6 has a non-text type, id 7 is a text node with an empty
`widgets_values` list. -/
def exGraphNoText : UIWorkflow :=
  .obj
    { nodes := some (.arr
        [ .obj { id := some (.int 6), ty := some (.str "KSampler"),
                 inputs := none,
                 widgets_values := some
                   [.int 1, .str "fixed", .int 10, .int 7,
                    .str "euler", .str "karras", .int 1], extra := [] }
        , .obj { id := some (.int 7), ty := some (.str "CLIPTextEncode"),
                 inputs := none,
                 widgets_values := some [], extra := [] } ])
    , links := none
    , extra := [] }

/-- A concrete event stream: a binary frame, a progress event, an
executing event for another submission, the completion event for
submission `"p1"`, then a trailing event. -/
def exStream : List WsEvent :=
  [ .binaryFrame
  , .textEvent (.str "progress") (.str "3") (.str "p1")
  , .textEvent (.str "executing") .null (.str "p0")
  , .textEvent (.str "executing") (.str "3") (.str "p1")
  , .textEvent (.str "executing") .null (.str "p1")
  , .textEvent (.str "status") .null (.str "p1") ]

/-! ## Helper lemmas -/

theorem startsWithChars_iff (n : List Char) : ∀ h : List Char,
    startsWithChars n h = true ↔ ∃ t, h = n ++ t := by
  induction n with
  | nil => intro h; simp [startsWithChars]
  | cons a asr ih =>
    intro h
    cases h with
    | nil =>
      simp [startsWithChars]
    | cons b bs =>
      simp only [startsWithChars, Bool.and_eq_true, decide_eq_true_eq, ih,
        List.cons_append, List.cons.injEq]
      constructor
      · rintro ⟨rfl, t, rfl⟩
        exact ⟨t, rfl, rfl⟩
      · rintro ⟨t, rfl, rfl⟩
        exact ⟨rfl, t, rfl⟩

theorem subChars_iff (n : List Char) : ∀ h : List Char,
    subChars n h = true ↔ ∃ l1 l2, h = l1 ++ n ++ l2 := by
  intro h
  induction h with
  | nil =>
    rw [show subChars n [] = startsWithChars n [] from rfl, startsWithChars_iff]
    constructor
    · rintro ⟨t, ht⟩
      exact ⟨[], t, by simpa using ht⟩
    · rintro ⟨l1, l2, hl⟩
      rcases List.append_eq_nil.mp (List.append_eq_nil.mp hl.symm).1 with ⟨h1, h2⟩
      exact ⟨[], by simp [h2]⟩
  | cons c t ih =>
    rw [show subChars n (c :: t) = (startsWithChars n (c :: t) || subChars n t) from rfl]
    simp only [Bool.or_eq_true, startsWithChars_iff, ih]
    constructor
    · rintro (⟨r, hr⟩ | ⟨l1, l2, hl⟩)
      · exact ⟨[], r, by simpa using hr⟩
      · exact ⟨c :: l1, l2, by simp [hl]⟩
    · rintro ⟨l1, l2, hl⟩
      cases l1 with
      | nil => exact Or.inl ⟨l2, by simpa using hl⟩
      | cons d l1 =>
        simp only [List.cons_append, List.cons.injEq] at hl
        exact Or.inr ⟨l1, l2, hl.2⟩

theorem strIn_iff (needle hay : String) :
    strIn needle hay = true ↔ ∃ l1 l2, hay.toList = l1 ++ needle.toList ++ l2 :=
  subChars_iff needle.toList hay.toList

theorem conv_step_subset (lm : List (JVal × LinkInfo)) (acc : List (String × ApiNode))
    (x : String × ApiNode) (n : UINode) (h : x ∈ acc) : x ∈ conv_step lm acc n := by
  cases n with
  | nonDict v => exact h
  | obj f =>
    cases hid : f.id with
    | none => simpa [conv_step, hid] using h
    | some idv =>
      simp only [conv_step, hid]
      exact List.mem_cons_of_mem _ h

theorem mem_foldl_conv (lm : List (JVal × LinkInfo)) :
    ∀ (ns : List UINode) (acc : List (String × ApiNode)) (x : String × ApiNode),
      x ∈ acc → x ∈ ns.foldl (conv_step lm) acc := by
  intro ns
  induction ns with
  | nil => intro acc x h; simpa using h
  | cons n rest ih => intro acc x h; exact ih _ _ (conv_step_subset _ _ _ _ h)

theorem mem_convert_aux (lm : List (JVal × LinkInfo)) :
    ∀ (ns : List UINode) (acc : List (String × ApiNode)) (f : NodeObj) (idv : JVal),
      UINode.obj f ∈ ns → f.id = some idv →
      (pyStr idv, build_api_node lm f) ∈ ns.foldl (conv_step lm) acc := by
  intro ns
  induction ns with
  | nil =>
    intro acc f idv h
    exact absurd h (List.not_mem_nil _)
  | cons n rest ih =>
    intro acc f idv hmem hid
    rcases List.mem_cons.mp hmem with heq | htail
    · cases heq
      rw [List.foldl_cons]
      apply mem_foldl_conv
      simp [conv_step, hid]
    · exact ih _ _ _ htail hid

theorem mem_convert (g : UIWorkflow) (f : NodeObj) (idv : JVal)
    (hmem : UINode.obj f ∈ getNodes g) (hid : f.id = some idv) :
    (pyStr idv, build_api_node (build_link_map (getLinks g)) f) ∈
      convert_ui_to_api_format g :=
  mem_convert_aux _ _ _ _ _ hmem hid

theorem mem_find_fold :
    ∀ (ns : List UINode) (acc : List (Option JVal × TextNodeEntry)),
      (∀ p ∈ acc, p.2.is_negative = classify_negative p.2.text) →
      ∀ p ∈ ns.foldl find_step acc, p.2.is_negative = classify_negative p.2.text := by
  intro ns
  induction ns with
  | nil => intro acc hacc p hp; exact hacc p (by simpa using hp)
  | cons n rest ih =>
    intro acc hacc p hp
    refine ih (find_step acc n) ?_ p hp
    intro q hq
    cases n with
    | nonDict v => exact hacc q hq
    | obj f =>
      by_cases hty : f.ty = some (JVal.str "CLIPTextEncode")
      · cases hw : f.widgets_values with
        | none =>
          simp only [find_step, hty, hw, if_true] at hq
          exact hacc q hq
        | some l =>
          cases l with
          | nil =>
            simp only [find_step, hty, hw, if_true] at hq
            exact hacc q hq
          | cons w ws =>
            simp only [find_step, hty, hw, if_true] at hq
            rcases List.mem_cons.mp hq with rfl | hq'
            · rfl
            · exact hacc q hq'
      · simp only [find_step, hty, if_false] at hq
        exact hacc q hq

/-! ## Claims -/

/-- **C5** `convert_ui_to_api_format` is a deterministic pure function
of its link-form input: structurally identical inputs (including the
order of the `links` array) produce structurally identical
execution-form outputs, and evaluating it twice on the same graph
yields the same result.  (In this embedding the graph is an immutable
value, so the source's no-mutation obligation is met by
construction.) -/
theorem claim_C5 (g1 g2 : UIWorkflow) (h : g1 = g2) :
    convert_ui_to_api_format g1 = convert_ui_to_api_format g2 ∧
    convert_ui_to_api_format g1 = convert_ui_to_api_format g1 := by
  subst h
  exact ⟨rfl, rfl⟩

theorem claim_C5_witness :
    exGraph = exGraph ∧
    (convert_ui_to_api_format exGraph = convert_ui_to_api_format exGraph ∧
     convert_ui_to_api_format exGraph = convert_ui_to_api_format exGraph) :=
  ⟨rfl, claim_C5 exGraph exGraph rfl⟩

/-- **C7** The wait loop of `get_images` returns only after consuming
a completion event — `type == 'executing'`, empty `node`, matching
submission id — and every earlier event of the stream (binary frames,
other event types, other submissions) is skipped; moreover skipping a
non-completion event has no effect on the loop's result. -/
theorem claim_C7 (prompt_id : JVal) (s : List WsEvent) :
    (∀ rest, wait_for_completion prompt_id s = some rest →
      ∃ pre e, s = pre ++ e :: rest ∧ is_completion prompt_id e = true ∧
        ∀ e' ∈ pre, is_completion prompt_id e' = false) ∧
    (∀ e, is_completion prompt_id e = false →
      wait_for_completion prompt_id (e :: s) = wait_for_completion prompt_id s) := by
  constructor
  · induction s with
    | nil => intro rest h; simp [wait_for_completion] at h
    | cons e t ih =>
      intro rest h
      by_cases hc : is_completion prompt_id e = true
      · rw [show wait_for_completion prompt_id (e :: t)
            = if is_completion prompt_id e then some t else wait_for_completion prompt_id t
            from rfl, if_pos hc] at h
        cases h
        exact ⟨[], e, rfl, hc, by simp⟩
      · rw [show wait_for_completion prompt_id (e :: t)
            = if is_completion prompt_id e then some t else wait_for_completion prompt_id t
            from rfl, if_neg hc] at h
        obtain ⟨pre, e', hs, hce, hpre⟩ := ih rest h
        rw [Bool.not_eq_true] at hc
        refine ⟨e :: pre, e', by rw [hs]; rfl, hce, ?_⟩
        intro x hx
        rcases List.mem_cons.mp hx with rfl | hx'
        · exact hc
        · exact hpre x hx'
  · intro e hce
    rw [show wait_for_completion prompt_id (e :: s)
        = if is_completion prompt_id e then some s else wait_for_completion prompt_id s
        from rfl, hce]
    simp

theorem claim_C7_witness :
    (wait_for_completion (JVal.str "p1") exStream
      = some [WsEvent.textEvent (JVal.str "status") JVal.null (JVal.str "p1")]) ∧
    (∃ pre e, exStream
        = pre ++ e :: [WsEvent.textEvent (JVal.str "status") JVal.null (JVal.str "p1")] ∧
      is_completion (JVal.str "p1") e = true ∧
      ∀ e' ∈ pre, is_completion (JVal.str "p1") e' = false) ∧
    wait_for_completion (JVal.str "p1") (WsEvent.binaryFrame :: exStream)
      = wait_for_completion (JVal.str "p1") exStream :=
  ⟨by decide,
   (claim_C7 (JVal.str "p1") exStream).1 _ (by decide),
   (claim_C7 (JVal.str "p1") exStream).2 WsEvent.binaryFrame (by decide)⟩

/-- **C10** In `convert_ui_to_api_format`, a declared node input whose
link id is `null`/absent or does not resolve through the link map is
silently skipped — the remaining inputs are resolved exactly as if the
dangling one were not there — and a link entry with fewer than six
elements contributes nothing to the link map.  (Both functions are
total: no error is raised.) -/
theorem claim_C10 :
    (∀ (lm : List (JVal × LinkInfo)) (xs ys : List NodeInput) (it : NodeInput),
      (∀ lid, it.link = some lid → dictFind lid lm = none) →
      resolve_link_inputs lm (xs ++ it :: ys) = resolve_link_inputs lm (xs ++ ys)) ∧
    (∀ (ls1 ls2 : List (List JVal)) (l : List JVal), l.length < 6 →
      build_link_map (ls1 ++ l :: ls2) = build_link_map (ls1 ++ ls2)) := by
  constructor
  · intro lm xs ys it hskip
    have hstep : ∀ A, resolve_step lm A it = A := by
      intro A
      cases hl : it.link with
      | none => simp [resolve_step, hl]
      | some lid => simp [resolve_step, hl, hskip lid hl]
    unfold resolve_link_inputs
    rw [List.foldl_append, List.foldl_append, List.foldl_cons, hstep]
  · intro ls1 ls2 l hlen
    have hstep : ∀ m, link_step m l = m := by
      intro m
      rcases l with _ | ⟨a, _ | ⟨b, _ | ⟨c, _ | ⟨d, _ | ⟨e, _ | ⟨f, t⟩⟩⟩⟩⟩⟩ <;>
        first
          | rfl
          | (exfalso; simp only [List.length_cons] at hlen; omega)
    unfold build_link_map
    rw [List.foldl_append, List.foldl_append, List.foldl_cons, hstep]

theorem claim_C10_witness :
    (∀ lid, (NodeInput.mk (some "mask") (some (JVal.int 99))).link = some lid →
      dictFind lid (build_link_map (getLinks exGraph)) = none) ∧
    ((999 : Nat) < 6 → False) ∧
    resolve_link_inputs (build_link_map (getLinks exGraph))
        ([NodeInput.mk (some "clip") (some (JVal.int 1))]
          ++ NodeInput.mk (some "mask") (some (JVal.int 99))
            :: [NodeInput.mk (some "model") (some (JVal.int 3))])
      = resolve_link_inputs (build_link_map (getLinks exGraph))
        ([NodeInput.mk (some "clip") (some (JVal.int 1))]
          ++ [NodeInput.mk (some "model") (some (JVal.int 3))]) ∧
    build_link_map (getLinks exGraph ++ [JVal.int 77, JVal.int 1] :: [])
      = build_link_map (getLinks exGraph ++ []) := by
  have hskip : ∀ lid, (NodeInput.mk (some "mask") (some (JVal.int 99))).link = some lid →
      dictFind lid (build_link_map (getLinks exGraph)) = none := by
    intro lid h
    injection h with h'
    subst h'
    decide
  exact ⟨hskip, by decide,
    claim_C10.1 (build_link_map (getLinks exGraph)) _ _ _ hskip,
    claim_C10.2 (getLinks exGraph) [] [JVal.int 77, JVal.int 1] (by decide)⟩

/-- **C4** The batch loop of `generate_batch` produces exactly one log
record per prompt item, in order: an item whose processing (injection,
conversion, submission/wait/collection, or saving) raises is logged as
failed together with that item's identifier and the loop moves on —
no per-item failure terminates the run. -/
theorem claim_C4 (workflow : UIWorkflow)
    (run_images : List (String × ApiNode) → Except String (List (String × Nat)))
    (save_image : String → Except String Unit) (ps : List PromptItem) :
    List.Forall₂
      (fun p l => l.itemId = p.id ∧
        ((∃ e, process_prompt workflow run_images save_image p = Except.error e ∧
            l = ItemLog.failed p.id e) ∨
         (∃ n, process_prompt workflow run_images save_image p = Except.ok n ∧
            l = ItemLog.done p.id n)))
      ps (generate_batch_loop (process_prompt workflow run_images save_image) ps) := by
  induction ps with
  | nil => exact List.Forall₂.nil
  | cons p rest ih =>
    cases hp : process_prompt workflow run_images save_image p with
    | ok n =>
      simp only [generate_batch_loop, hp]
      exact List.Forall₂.cons ⟨rfl, Or.inr ⟨n, hp, rfl⟩⟩ ih
    | error e =>
      simp only [generate_batch_loop, hp]
      exact List.Forall₂.cons ⟨rfl, Or.inl ⟨e, hp, rfl⟩⟩ ih

/-- **C6** `find_text_encode_nodes` labels a candidate text node
negative exactly when the lower-cased string form of its first widget
value contains one of the substrings `nsfw`, `worst`, `low quality`,
`bad`, `negative`, `ugly`; otherwise positive.  The label is a pure
function of that existing text. -/
theorem claim_C6 (g : UIWorkflow) (k : Option JVal) (e : TextNodeEntry)
    (hmem : (k, e) ∈ find_text_encode_nodes g) :
    e.is_negative = classify_negative e.text ∧
    (e.is_negative = true ↔ ∃ w ∈ neg_keywords, ∃ l1 l2,
      (pyLower (pyStr e.text)).toList = l1 ++ w.toList ++ l2) := by
  have h1 : e.is_negative = classify_negative e.text :=
    mem_find_fold (getNodes g) [] (by intro p hp; simp at hp) (k, e) hmem
  refine ⟨h1, ?_⟩
  rw [h1]
  simp only [classify_negative, List.any_eq_true, strIn_iff]

theorem claim_C6_witness :
    ((some (JVal.int 7),
      TextNodeEntry.mk
        (UINode.obj
          { id := some (JVal.int 7), ty := some (JVal.str "CLIPTextEncode"),
            inputs := some [{ name := some "clip", link := some (JVal.int 2) }],
            widgets_values := some [JVal.str "nsfw, worst quality"], extra := [] })
        (JVal.str "nsfw, worst quality") true)
      ∈ find_text_encode_nodes exGraph) ∧
    (true = classify_negative (JVal.str "nsfw, worst quality") ∧
     (true = true ↔ ∃ w ∈ neg_keywords, ∃ l1 l2,
        (pyLower (pyStr (JVal.str "nsfw, worst quality"))).toList
          = l1 ++ w.toList ++ l2)) :=
  ⟨by decide,
   claim_C6 exGraph (some (JVal.int 7))
     (TextNodeEntry.mk
       (UINode.obj
         { id := some (JVal.int 7), ty := some (JVal.str "CLIPTextEncode"),
           inputs := some [{ name := some "clip", link := some (JVal.int 2) }],
           widgets_values := some [JVal.str "nsfw, worst quality"], extra := [] })
       (JVal.str "nsfw, worst quality") true)
     (by decide)⟩

/-- **C2** A link-form `CLIPTextEncode` node with a non-empty
`widgets_values` list gets an execution-form entry (under the string
form of its id) whose `text` input is its first widget value; this
write happens after link resolution and therefore wins any lookup of
`text`, taking precedence over a link-resolved value. -/
theorem claim_C2 (g : UIWorkflow) (f : NodeObj) (idv w : JVal) (ws : List JVal)
    (hmem : UINode.obj f ∈ getNodes g) (hid : f.id = some idv)
    (hty : f.ty = some (JVal.str "CLIPTextEncode"))
    (hw : f.widgets_values = some (w :: ws)) :
    (pyStr idv, build_api_node (build_link_map (getLinks g)) f) ∈
      convert_ui_to_api_format g ∧
    dictFind "text" (build_api_node (build_link_map (getLinks g)) f).inputs
      = some (ApiInputVal.lit w) := by
  refine ⟨mem_convert g f idv hmem hid, ?_⟩
  simp [build_api_node, hty, hw, dictFind]

theorem claim_C2_witness :
    (UINode.obj
        { id := some (JVal.int 6), ty := some (JVal.str "CLIPTextEncode"),
          inputs := some [{ name := some "clip", link := some (JVal.int 1) }],
          widgets_values := some [JVal.str "a photo of a landscape"], extra := [] }
      ∈ getNodes exGraph) ∧
    ((pyStr (JVal.int 6),
      build_api_node (build_link_map (getLinks exGraph))
        { id := some (JVal.int 6), ty := some (JVal.str "CLIPTextEncode"),
          inputs := some [{ name := some "clip", link := some (JVal.int 1) }],
          widgets_values := some [JVal.str "a photo of a landscape"], extra := [] })
      ∈ convert_ui_to_api_format exGraph ∧
     dictFind "text"
        (build_api_node (build_link_map (getLinks exGraph))
          { id := some (JVal.int 6), ty := some (JVal.str "CLIPTextEncode"),
            inputs := some [{ name := some "clip", link := some (JVal.int 1) }],
            widgets_values := some [JVal.str "a photo of a landscape"], extra := [] }).inputs
      = some (ApiInputVal.lit (JVal.str "a photo of a landscape"))) :=
  ⟨by decide, claim_C2 exGraph _ (JVal.int 6) (JVal.str "a photo of a landscape") []
    (by decide) rfl rfl rfl⟩

/-- **C1** (amended) Every link-form node with an id gets its
execution-form entry; on that entry the widget overlay of
`convert_ui_to_api_format` maps `KSampler` widgets 0-6 to `seed`,
`control_after_generate`, `steps`, `cfg`, `sampler_name`,
`scheduler`, `denoise`, `EmptyLatentImage` widgets 0-2 to `width`,
`height`, `batch_size`, `CheckpointLoaderSimple` widget 0 to
`ckpt_name`, and `LoraLoader` widgets 0-2 to `lora_name`,
`strength_model`, `strength_clip`; the widget mapping step adds
nothing for any other node type (the `CLIPTextEncode` `text` special
case, covered by C2, is the sole other widget-derived input). -/
theorem claim_C1 :
    (∀ (lm : List (JVal × LinkInfo)) (f : NodeObj) (w0 w1 w2 w3 w4 w5 w6 : JVal)
        (rest : List JVal),
      f.ty = some (JVal.str "KSampler") →
      f.widgets_values = some (w0 :: w1 :: w2 :: w3 :: w4 :: w5 :: w6 :: rest) →
      dictFind "seed" (build_api_node lm f).inputs = some (ApiInputVal.lit w0) ∧
      dictFind "control_after_generate" (build_api_node lm f).inputs
        = some (ApiInputVal.lit w1) ∧
      dictFind "steps" (build_api_node lm f).inputs = some (ApiInputVal.lit w2) ∧
      dictFind "cfg" (build_api_node lm f).inputs = some (ApiInputVal.lit w3) ∧
      dictFind "sampler_name" (build_api_node lm f).inputs = some (ApiInputVal.lit w4) ∧
      dictFind "scheduler" (build_api_node lm f).inputs = some (ApiInputVal.lit w5) ∧
      dictFind "denoise" (build_api_node lm f).inputs = some (ApiInputVal.lit w6)) ∧
    (∀ (lm : List (JVal × LinkInfo)) (f : NodeObj) (w0 w1 w2 : JVal)
        (rest : List JVal),
      f.ty = some (JVal.str "EmptyLatentImage") →
      f.widgets_values = some (w0 :: w1 :: w2 :: rest) →
      dictFind "width" (build_api_node lm f).inputs = some (ApiInputVal.lit w0) ∧
      dictFind "height" (build_api_node lm f).inputs = some (ApiInputVal.lit w1) ∧
      dictFind "batch_size" (build_api_node lm f).inputs = some (ApiInputVal.lit w2)) ∧
    (∀ (lm : List (JVal × LinkInfo)) (f : NodeObj) (w0 : JVal) (rest : List JVal),
      f.ty = some (JVal.str "CheckpointLoaderSimple") →
      f.widgets_values = some (w0 :: rest) →
      dictFind "ckpt_name" (build_api_node lm f).inputs = some (ApiInputVal.lit w0)) ∧
    (∀ (lm : List (JVal × LinkInfo)) (f : NodeObj) (w0 w1 w2 : JVal)
        (rest : List JVal),
      f.ty = some (JVal.str "LoraLoader") →
      f.widgets_values = some (w0 :: w1 :: w2 :: rest) →
      dictFind "lora_name" (build_api_node lm f).inputs = some (ApiInputVal.lit w0) ∧
      dictFind "strength_model" (build_api_node lm f).inputs = some (ApiInputVal.lit w1) ∧
      dictFind "strength_clip" (build_api_node lm f).inputs = some (ApiInputVal.lit w2)) ∧
    (∀ (g : UIWorkflow) (f : NodeObj) (idv : JVal),
      UINode.obj f ∈ getNodes g → f.id = some idv →
      (pyStr idv, build_api_node (build_link_map (getLinks g)) f) ∈
        convert_ui_to_api_format g) ∧
    (∀ (f : NodeObj) (ins : List (String × ApiInputVal)),
      (∀ t ∈ (["KSampler", "EmptyLatentImage", "CheckpointLoaderSimple",
                "LoraLoader"] : List String),
        f.ty.getD (JVal.str "") ≠ JVal.str t) →
      map_widgets_to_inputs f ins = ins) := by
  refine ⟨?_, ?_, ?_, ?_, ?_, ?_⟩
  · intro lm f w0 w1 w2 w3 w4 w5 w6 rest hty hw
    have hlen : 7 ≤ (w0 :: w1 :: w2 :: w3 :: w4 :: w5 :: w6 :: rest).length := by
      simp only [List.length_cons]
      omega
    simp [build_api_node, map_widgets_to_inputs, hty, hw, hlen, dictFind, List.getD]
  · intro lm f w0 w1 w2 rest hty hw
    have hlen : 3 ≤ (w0 :: w1 :: w2 :: rest).length := by
      simp only [List.length_cons]
      omega
    simp [build_api_node, map_widgets_to_inputs, hty, hw, hlen, dictFind, List.getD]
  · intro lm f w0 rest hty hw
    have hlen : 1 ≤ (w0 :: rest).length := by
      simp only [List.length_cons]
      omega
    simp [build_api_node, map_widgets_to_inputs, hty, hw, hlen, dictFind, List.getD]
  · intro lm f w0 w1 w2 rest hty hw
    have hlen : 3 ≤ (w0 :: w1 :: w2 :: rest).length := by
      simp only [List.length_cons]
      omega
    simp [build_api_node, map_widgets_to_inputs, hty, hw, hlen, dictFind, List.getD]
  · intro g f idv hmem hid
    exact mem_convert g f idv hmem hid
  · intro f ins hne
    have h1 := hne "KSampler" (by simp)
    have h2 := hne "EmptyLatentImage" (by simp)
    have h3 := hne "CheckpointLoaderSimple" (by simp)
    have h4 := hne "LoraLoader" (by simp)
    simp only [map_widgets_to_inputs]
    rw [if_neg (fun h => h1 h.1), if_neg (fun h => h2 h.1),
        if_neg (fun h => h3 h.1), if_neg (fun h => h4 h.1)]

theorem claim_C1_witness :
    ((UINode.obj
        { id := some (JVal.int 3), ty := some (JVal.str "KSampler"),
          inputs := some
            [ { name := some "model", link := some (JVal.int 3) }
            , { name := some "positive", link := some (JVal.int 4) }
            , { name := some "negative", link := some (JVal.int 5) } ],
          widgets_values := some
            [JVal.int 42, JVal.str "randomize", JVal.int 20, JVal.int 8,
             JVal.str "euler", JVal.str "normal", JVal.int 1], extra := [] }
      ∈ getNodes exGraph) ∧
     (dictFind "seed"
        (build_api_node (build_link_map (getLinks exGraph))
          { id := some (JVal.int 3), ty := some (JVal.str "KSampler"),
            inputs := some
              [ { name := some "model", link := some (JVal.int 3) }
              , { name := some "positive", link := some (JVal.int 4) }
              , { name := some "negative", link := some (JVal.int 5) } ],
            widgets_values := some
              [JVal.int 42, JVal.str "randomize", JVal.int 20, JVal.int 8,
               JVal.str "euler", JVal.str "normal", JVal.int 1], extra := [] }).inputs
        = some (ApiInputVal.lit (JVal.int 42))) ∧
     map_widgets_to_inputs
        { id := some (JVal.int 8), ty := some (JVal.str "SaveImage"),
          inputs := none, widgets_values := some [JVal.str "ComfyUI"], extra := [] }
        [] = []) :=
  ⟨by decide,
   ((claim_C1.1 (build_link_map (getLinks exGraph)) _
      (JVal.int 42) (JVal.str "randomize") (JVal.int 20) (JVal.int 8)
      (JVal.str "euler") (JVal.str "normal") (JVal.int 1) [] rfl rfl).1),
   (claim_C1.2.2.2.2.2
      { id := some (JVal.int 8), ty := some (JVal.str "SaveImage"),
        inputs := none, widgets_values := some [JVal.str "ComfyUI"], extra := [] }
      [] (by intro t ht; fin_cases ht <;> decide))⟩

theorem claim_C1_counterexample :
    ((["KSampler", "EmptyLatentImage", "CheckpointLoaderSimple",
       "LoraLoader"] : List String).contains "CLIPTextEncode" = false) ∧
    getLinks exGraphClipOnly = [] ∧
    convert_ui_to_api_format exGraphClipOnly
      = [("1", { class_type := JVal.str "CLIPTextEncode",
                 inputs := [("text", ApiInputVal.lit (JVal.str "hello"))] })] := by
  refine ⟨by decide, rfl, by decide⟩

/-! ## Lemmas about the prompt-injection loop -/

theorem update_node_fst_obj (pos neg : String) (pid nid : JVal) (f : NodeObj) :
    ∃ wv, (update_node pos neg pid nid (UINode.obj f)).1
      = UINode.obj { f with widgets_values := wv } := by
  obtain ⟨fid, fty, fins, fwv, fex⟩ := f
  cases fid with
  | none => exact ⟨fwv, rfl⟩
  | some idv =>
    by_cases hty : fty = some (JVal.str "CLIPTextEncode")
    · subst hty
      cases fwv with
      | none => exact ⟨none, by simp [update_node]⟩
      | some l =>
        cases l with
        | nil => exact ⟨some [], by simp [update_node]⟩
        | cons w ws =>
          by_cases hp : idv = pid
          · exact ⟨some (JVal.str pos :: ws), by simp [update_node, hp]⟩
          · by_cases hn : idv = nid
            · exact ⟨some (JVal.str neg :: ws),
                by rw [hn] at hp; simp [update_node, hn, hp]⟩
            · exact ⟨some (w :: ws), by simp [update_node, hp, hn]⟩
    · exact ⟨fwv, by simp [update_node, hty]⟩

theorem update_nodes_fst (pos neg : String) (pid nid : JVal) :
    ∀ ns : List UINode, (update_nodes pos neg pid nid ns).1
      = ns.map (fun n => (update_node pos neg pid nid n).1) := by
  intro ns
  induction ns with
  | nil => rfl
  | cons n rest ih => simp [update_nodes, ih]

theorem update_nodes_snd (pos neg : String) (pid nid : JVal) :
    ∀ ns : List UINode, (update_nodes pos neg pid nid ns).2
      = (ns.map (fun n => (update_node pos neg pid nid n).2)).sum := by
  intro ns
  induction ns with
  | nil => rfl
  | cons n rest ih => simp [update_nodes, ih]

theorem validate_nodes_update (pos neg : String) (pid nid : JVal) :
    ∀ (ns : List UINode) (i : Nat),
      validate_nodes_from i (update_nodes pos neg pid nid ns).1
        = validate_nodes_from i ns := by
  intro ns
  induction ns with
  | nil => intro i; rfl
  | cons n rest ih =>
    intro i
    have hstep : (update_nodes pos neg pid nid (n :: rest)).1
        = (update_node pos neg pid nid n).1
          :: (update_nodes pos neg pid nid rest).1 := rfl
    rw [hstep]
    cases n with
    | nonDict v => simp [update_node, validate_nodes_from]
    | obj f =>
      obtain ⟨wv, hwv⟩ := update_node_fst_obj pos neg pid nid f
      rw [hwv]
      cases hid : f.id with
      | none => simp [validate_nodes_from, hid]
      | some idv =>
        by_cases hty : f.ty = none
        · simp [validate_nodes_from, hid, hty]
        · simp [validate_nodes_from, hid, hty, ih]

theorem update_node_frame (pos neg : String) (pid nid : JVal) (n : UINode) :
    same_except_first_widget pos neg pid nid n (update_node pos neg pid nid n).1 := by
  cases n with
  | nonDict v => exact Or.inl rfl
  | obj f =>
    cases hid : f.id with
    | none => exact Or.inl (by simp [update_node, hid])
    | some idv =>
      by_cases hty : f.ty = some (JVal.str "CLIPTextEncode")
      · cases hw : f.widgets_values with
        | none => exact Or.inl (by simp [update_node, hid, hty, hw])
        | some l =>
          cases l with
          | nil => exact Or.inl (by simp [update_node, hid, hty, hw])
          | cons w ws =>
            by_cases hp : idv = pid
            · have hfid : f.id = some pid := by rw [hid, hp]
              refine Or.inr ⟨f, w, ws, rfl, hty, hw, Or.inl hfid, ?_⟩
              simp [update_node, hid, hty, hw, hp, hfid]
            · by_cases hn : idv = nid
              · have hfid : f.id ≠ some pid := by
                  rw [hid]
                  simpa using hp
                have hfid2 : f.id = some nid := by rw [hid, hn]
                refine Or.inr ⟨f, w, ws, rfl, hty, hw, Or.inr hfid2, ?_⟩
                rw [hn] at hp
                simp [update_node, hid, hty, hw, hn, hp, hfid]
              · exact Or.inl (by simp [update_node, hid, hty, hw, hp, hn])
      · exact Or.inl (by simp [update_node, hid, hty])

theorem frame_id {pos neg : String} {pid nid : JVal} {n n' : UINode}
    (h : same_except_first_widget pos neg pid nid n n') :
    node_id_of n' = node_id_of n := by
  rcases h with rfl | ⟨f, w, ws, rfl, _, _, _, rfl⟩
  · rfl
  · rfl

theorem eligible_update (pos neg : String) (pid nid : JVal) (n : UINode)
    (hel : eligible_text_node pid n = true) :
    update_node pos neg pid nid n = (set_first_widget (JVal.str pos) n, 1) := by
  cases n with
  | nonDict v => simp [eligible_text_node] at hel
  | obj f =>
    simp only [eligible_text_node, Bool.and_eq_true, decide_eq_true_eq] at hel
    obtain ⟨⟨hid, hty⟩, hwm⟩ := hel
    cases hw : f.widgets_values with
    | none => rw [hw] at hwm; simp at hwm
    | some l =>
      cases l with
      | nil => rw [hw] at hwm; simp at hwm
      | cons w ws => simp [update_node, set_first_widget, hid, hty, hw]

theorem noneligible_update (pos neg : String) (pid nid : JVal) (n : UINode)
    (hne : eligible_text_node pid n = false)
    (hnid : node_id_of n ≠ some nid) :
    update_node pos neg pid nid n = (n, 0) := by
  cases n with
  | nonDict v => rfl
  | obj f =>
    cases hid : f.id with
    | none => simp [update_node, hid]
    | some idv =>
      by_cases hty : f.ty = some (JVal.str "CLIPTextEncode")
      · cases hw : f.widgets_values with
        | none => simp [update_node, hid, hty, hw]
        | some l =>
          cases l with
          | nil => simp [update_node, hid, hty, hw]
          | cons w ws =>
            have hp : ¬ idv = pid := by
              intro hp
              rw [eligible_text_node] at hne
              simp [hid, hty, hw, hp] at hne
            have hn : ¬ idv = nid := by
              intro hn
              apply hnid
              show f.id = some nid
              rw [hid, hn]
            simp [update_node, hid, hty, hw, hp, hn]
      · simp [update_node, hid, hty]

theorem noneligible2_update (pos neg : String) (pid nid : JVal) (n : UINode)
    (hne1 : eligible_text_node pid n = false)
    (hne2 : eligible_text_node nid n = false) :
    update_node pos neg pid nid n = (n, 0) := by
  cases n with
  | nonDict v => rfl
  | obj f =>
    cases hid : f.id with
    | none => simp [update_node, hid]
    | some idv =>
      by_cases hty : f.ty = some (JVal.str "CLIPTextEncode")
      · cases hw : f.widgets_values with
        | none => simp [update_node, hid, hty, hw]
        | some l =>
          cases l with
          | nil => simp [update_node, hid, hty, hw]
          | cons w ws =>
            have hp : ¬ idv = pid := by
              intro hp
              rw [eligible_text_node] at hne1
              simp [hid, hty, hw, hp] at hne1
            have hn : ¬ idv = nid := by
              intro hn
              rw [eligible_text_node] at hne2
              simp [hid, hty, hw, hn] at hne2
            simp [update_node, hid, hty, hw, hp, hn]
      · simp [update_node, hid, hty]

theorem update_nodes_pos (pos neg : String) (pid nid : JVal) :
    ∀ ns : List UINode, (∃ n ∈ ns, eligible_text_node pid n = true) →
      0 < (update_nodes pos neg pid nid ns).2 := by
  intro ns
  induction ns with
  | nil => rintro ⟨n, hn, _⟩; simp at hn
  | cons n rest ih =>
    rintro ⟨m, hm, hel⟩
    have hsnd : (update_nodes pos neg pid nid (n :: rest)).2
        = (update_node pos neg pid nid n).2
          + (update_nodes pos neg pid nid rest).2 := rfl
    rw [hsnd]
    rcases List.mem_cons.mp hm with rfl | hm'
    · rw [eligible_update pos neg pid nid m hel]
      omega
    · have := ih ⟨m, hm', hel⟩
      omega

/-- **C3** On a graph that passes validation, `update_workflow_prompt`
succeeds and is a pure frame change: the links array and all other
workflow keys are untouched, the node list keeps its length, its ids
and their order, and each node is either unchanged or is a targeted
`CLIPTextEncode` node whose first widget value alone was replaced. -/
theorem claim_C3 (g : UIWorkflow) (pos neg : String)
    (hval : (validate_workflow g).1 = true) :
    ∃ g' cnt, update_workflow_prompt g pos neg (JVal.int 6) (JVal.int 7)
        = Except.ok (g', cnt) ∧
      getLinks g' = getLinks g ∧
      wf_extra g' = wf_extra g ∧
      (getNodes g').length = (getNodes g).length ∧
      (getNodes g').map node_id_of = (getNodes g).map node_id_of ∧
      List.Forall₂ (same_except_first_widget pos neg (JVal.int 6) (JVal.int 7))
        (getNodes g) (getNodes g') := by
  cases g with
  | nonDict v => simp [validate_workflow] at hval
  | obj w =>
    cases hn : w.nodes with
    | none => simp [validate_workflow, hn] at hval
    | some nf =>
      cases nf with
      | nonArr v => simp [validate_workflow, hn] at hval
      | arr ns =>
        have hgn : getNodes (UIWorkflow.obj w) = ns := by simp [getNodes, hn]
        have hvns : (validate_nodes_from 0 ns).1 = true := by
          simpa [validate_workflow, hn] using hval
        have hv3 : (validate_workflow (UIWorkflow.obj
            { w with nodes := some (NodesField.arr
              (update_nodes pos neg (JVal.int 6) (JVal.int 7) ns).1) })).1 = true := by
          simp [validate_workflow, validate_nodes_update, hvns]
        have hgn' : getNodes (UIWorkflow.obj
            { w with nodes := some (NodesField.arr
              (update_nodes pos neg (JVal.int 6) (JVal.int 7) ns).1) })
            = (update_nodes pos neg (JVal.int 6) (JVal.int 7) ns).1 := by
          simp [getNodes]
        refine ⟨UIWorkflow.obj { w with nodes := some (NodesField.arr
              (update_nodes pos neg (JVal.int 6) (JVal.int 7) ns).1) },
          (update_nodes pos neg (JVal.int 6) (JVal.int 7) ns).2, ?_, rfl, rfl, ?_, ?_, ?_⟩
        · simp [update_workflow_prompt, hval, getNodes, hn, setNodes, hv3]
        · rw [hgn, hgn', update_nodes_fst, List.length_map]
        · rw [hgn, hgn', update_nodes_fst, List.map_map]
          exact List.map_congr_left
            (fun n _ => frame_id (update_node_frame pos neg (JVal.int 6) (JVal.int 7) n))
        · rw [hgn, hgn', update_nodes_fst, List.forall₂_map_right_iff]
          exact List.forall₂_same.mpr
            (fun n _ => update_node_frame pos neg (JVal.int 6) (JVal.int 7) n)

theorem claim_C3_witness :
    (validate_workflow exGraph).1 = true ∧
    (∃ g' cnt, update_workflow_prompt exGraph "a cat" "ugly, bad"
        (JVal.int 6) (JVal.int 7) = Except.ok (g', cnt) ∧
      getLinks g' = getLinks exGraph ∧
      wf_extra g' = wf_extra exGraph ∧
      (getNodes g').length = (getNodes exGraph).length ∧
      (getNodes g').map node_id_of = (getNodes exGraph).map node_id_of ∧
      List.Forall₂ (same_except_first_widget "a cat" "ugly, bad"
        (JVal.int 6) (JVal.int 7)) (getNodes exGraph) (getNodes g')) :=
  ⟨by decide, claim_C3 exGraph "a cat" "ugly, bad" (by decide)⟩

/-- **C8** (amended) Identifier-driven injection with ids 6/7 on a
valid graph that has an updatable text node with id 6 and no node with
id 7 updates exactly the id-6 text nodes with the positive text,
leaves every other node unchanged, and returns a graph that still
passes validation; the "no nodes updated" warning is NOT emitted in
this scenario — the source prints it only when zero nodes were
updated. -/
theorem claim_C8 (g : UIWorkflow) (pos neg : String)
    (hval : (validate_workflow g).1 = true)
    (hex : ∃ n ∈ getNodes g, eligible_text_node (JVal.int 6) n = true)
    (h7 : ∀ n ∈ getNodes g, node_id_of n ≠ some (JVal.int 7)) :
    ∃ g' cnt, update_workflow_prompt g pos neg (JVal.int 6) (JVal.int 7)
        = Except.ok (g', cnt) ∧
      0 < cnt ∧
      no_nodes_updated_warning
        (update_workflow_prompt g pos neg (JVal.int 6) (JVal.int 7)) = false ∧
      (validate_workflow g').1 = true ∧
      List.Forall₂ (fun n n' =>
          (eligible_text_node (JVal.int 6) n = true →
            n' = set_first_widget (JVal.str pos) n) ∧
          (eligible_text_node (JVal.int 6) n = false → n' = n))
        (getNodes g) (getNodes g') := by
  cases g with
  | nonDict v => simp [validate_workflow] at hval
  | obj w =>
    cases hn : w.nodes with
    | none => simp [validate_workflow, hn] at hval
    | some nf =>
      cases nf with
      | nonArr v => simp [validate_workflow, hn] at hval
      | arr ns =>
        have hgn : getNodes (UIWorkflow.obj w) = ns := by simp [getNodes, hn]
        rw [hgn] at hex h7
        have hvns : (validate_nodes_from 0 ns).1 = true := by
          simpa [validate_workflow, hn] using hval
        have hv3 : (validate_workflow (UIWorkflow.obj
            { w with nodes := some (NodesField.arr
              (update_nodes pos neg (JVal.int 6) (JVal.int 7) ns).1) })).1 = true := by
          simp [validate_workflow, validate_nodes_update, hvns]
        have hgn' : getNodes (UIWorkflow.obj
            { w with nodes := some (NodesField.arr
              (update_nodes pos neg (JVal.int 6) (JVal.int 7) ns).1) })
            = (update_nodes pos neg (JVal.int 6) (JVal.int 7) ns).1 := by
          simp [getNodes]
        have hupd : update_workflow_prompt (UIWorkflow.obj w) pos neg
            (JVal.int 6) (JVal.int 7)
            = Except.ok (UIWorkflow.obj { w with nodes := some (NodesField.arr
                (update_nodes pos neg (JVal.int 6) (JVal.int 7) ns).1) },
              (update_nodes pos neg (JVal.int 6) (JVal.int 7) ns).2) := by
          simp [update_workflow_prompt, hval, getNodes, hn, setNodes, hv3]
        have hcnt : 0 < (update_nodes pos neg (JVal.int 6) (JVal.int 7) ns).2 :=
          update_nodes_pos pos neg (JVal.int 6) (JVal.int 7) ns hex
        refine ⟨_, _, hupd, hcnt, ?_, hv3, ?_⟩
        · have hne0 : (update_nodes pos neg (JVal.int 6) (JVal.int 7) ns).2 ≠ 0 := by
            omega
          simp [no_nodes_updated_warning, hupd, hne0]
        · rw [hgn, hgn', update_nodes_fst, List.forall₂_map_right_iff]
          refine List.forall₂_same.mpr (fun n hmem => ⟨?_, ?_⟩)
          · intro hel
            rw [eligible_update pos neg (JVal.int 6) (JVal.int 7) n hel]
          · intro hne
            rw [noneligible_update pos neg (JVal.int 6) (JVal.int 7) n hne (h7 n hmem)]

theorem claim_C8_witness :
    (validate_workflow exGraph6).1 = true ∧
    (∃ n ∈ getNodes exGraph6, eligible_text_node (JVal.int 6) n = true) ∧
    (∀ n ∈ getNodes exGraph6, node_id_of n ≠ some (JVal.int 7)) ∧
    (∃ g' cnt, update_workflow_prompt exGraph6 "a cat" "ugly, bad"
        (JVal.int 6) (JVal.int 7) = Except.ok (g', cnt) ∧
      0 < cnt ∧
      no_nodes_updated_warning
        (update_workflow_prompt exGraph6 "a cat" "ugly, bad"
          (JVal.int 6) (JVal.int 7)) = false ∧
      (validate_workflow g').1 = true ∧
      List.Forall₂ (fun n n' =>
          (eligible_text_node (JVal.int 6) n = true →
            n' = set_first_widget (JVal.str "a cat") n) ∧
          (eligible_text_node (JVal.int 6) n = false → n' = n))
        (getNodes exGraph6) (getNodes g')) :=
  ⟨by decide, by decide, by decide,
   claim_C8 exGraph6 "a cat" "ugly, bad" (by decide) (by decide) (by decide)⟩

theorem claim_C8_counterexample :
    (validate_workflow exGraph6).1 = true ∧
    (getNodes exGraph6).any (fun n => eligible_text_node (JVal.int 6) n) = true ∧
    (getNodes exGraph6).all (fun n => !(node_id_of n == some (JVal.int 7))) = true ∧
    no_nodes_updated_warning
      (update_workflow_prompt exGraph6 "a cat" "ugly, bad"
        (JVal.int 6) (JVal.int 7)) = false := by
  decide

/-- **C9** A node whose id matches one of the two target ids but whose
type is not `CLIPTextEncode`, or whose `widgets_values` is absent or
empty, is left completely unchanged by the update loop and contributes
nothing to `updated_count`; a valid graph none of whose nodes is an
updatable target comes back from `update_workflow_prompt` entirely
unchanged with count 0, which triggers the "no nodes updated"
warning. -/
theorem claim_C9 :
    (∀ (pos neg : String) (pid nid : JVal) (f : NodeObj),
      (f.id = some pid ∨ f.id = some nid) →
      (f.ty ≠ some (JVal.str "CLIPTextEncode") ∨ f.widgets_values = none ∨
        f.widgets_values = some []) →
      update_node pos neg pid nid (UINode.obj f) = (UINode.obj f, 0)) ∧
    (∀ (g : UIWorkflow) (pos neg : String) (pid nid : JVal),
      (validate_workflow g).1 = true →
      (∀ n ∈ getNodes g, eligible_text_node pid n = false ∧
        eligible_text_node nid n = false) →
      update_workflow_prompt g pos neg pid nid = Except.ok (g, 0) ∧
      no_nodes_updated_warning (update_workflow_prompt g pos neg pid nid) = true) := by
  constructor
  · intro pos neg pid nid f hmatch hbad
    cases hid : f.id with
    | none => simp [update_node, hid]
    | some idv =>
      rcases hbad with hty | hwv | hwv
      · simp [update_node, hid, hty]
      · by_cases hty : f.ty = some (JVal.str "CLIPTextEncode")
        · simp [update_node, hid, hty, hwv]
        · simp [update_node, hid, hty]
      · by_cases hty : f.ty = some (JVal.str "CLIPTextEncode")
        · simp [update_node, hid, hty, hwv]
        · simp [update_node, hid, hty]
  · intro g pos neg pid nid hval hne
    cases g with
    | nonDict v => simp [validate_workflow] at hval
    | obj w =>
      cases hn : w.nodes with
      | none => simp [validate_workflow, hn] at hval
      | some nf =>
        cases nf with
        | nonArr v => simp [validate_workflow, hn] at hval
        | arr ns =>
          have hgn : getNodes (UIWorkflow.obj w) = ns := by simp [getNodes, hn]
          rw [hgn] at hne
          have hvns : (validate_nodes_from 0 ns).1 = true := by
            simpa [validate_workflow, hn] using hval
          have hfst : (update_nodes pos neg pid nid ns).1 = ns := by
            rw [update_nodes_fst]
            have hpt : ∀ n ∈ ns,
                (fun n => (update_node pos neg pid nid n).1) n = id n := by
              intro n hm
              show (update_node pos neg pid nid n).1 = n
              rw [noneligible2_update pos neg pid nid n (hne n hm).1 (hne n hm).2]
            rw [List.map_congr_left hpt, List.map_id]
          have hsnd : (update_nodes pos neg pid nid ns).2 = 0 := by
            rw [update_nodes_snd]
            apply List.sum_eq_zero
            intro x hx
            obtain ⟨n, hm, rfl⟩ := List.mem_map.mp hx
            rw [noneligible2_update pos neg pid nid n (hne n hm).1 (hne n hm).2]
          have hgback : UIWorkflow.obj { w with nodes := some (NodesField.arr ns) }
              = UIWorkflow.obj w := by
            rw [← hn]
          have hupd : update_workflow_prompt (UIWorkflow.obj w) pos neg pid nid
              = Except.ok (UIWorkflow.obj w, 0) := by
            simp [update_workflow_prompt, hval, getNodes, hn, setNodes, hfst, hsnd,
              hgback, validate_workflow, hvns]
          exact ⟨hupd, by simp [no_nodes_updated_warning, hupd]⟩

theorem claim_C9_witness :
    (({ id := some (JVal.int 6), ty := some (JVal.str "KSampler"), inputs := none,
        widgets_values := some [JVal.int 1], extra := [] } : NodeObj).id
      = some (JVal.int 6) ∨
     ({ id := some (JVal.int 6), ty := some (JVal.str "KSampler"), inputs := none,
        widgets_values := some [JVal.int 1], extra := [] } : NodeObj).id
      = some (JVal.int 7)) ∧
    (update_node "a cat" "ugly" (JVal.int 6) (JVal.int 7)
        (UINode.obj
          { id := some (JVal.int 6), ty := some (JVal.str "KSampler"),
            inputs := none, widgets_values := some [JVal.int 1], extra := [] })
      = (UINode.obj
          { id := some (JVal.int 6), ty := some (JVal.str "KSampler"),
            inputs := none, widgets_values := some [JVal.int 1], extra := [] }, 0)) ∧
    (validate_workflow exGraphNoText).1 = true ∧
    (update_workflow_prompt exGraphNoText "a cat" "ugly" (JVal.int 6) (JVal.int 7)
        = Except.ok (exGraphNoText, 0) ∧
      no_nodes_updated_warning
        (update_workflow_prompt exGraphNoText "a cat" "ugly"
          (JVal.int 6) (JVal.int 7)) = true) :=
  ⟨by decide,
   claim_C9.1 "a cat" "ugly" (JVal.int 6) (JVal.int 7)
     { id := some (JVal.int 6), ty := some (JVal.str "KSampler"),
       inputs := none, widgets_values := some [JVal.int 1], extra := [] }
     (by decide) (by decide),
   by decide,
   claim_C9.2 exGraphNoText "a cat" "ugly" (JVal.int 6) (JVal.int 7)
     (by decide) (by decide)⟩

end ComfyBatch
